import Mathlib

/-!
Verification of the LinuxForMac interactive distro selector and volume
logic, shallowly embedded from the Go source (`main.go` of the current
tree, presented as `part_001`).

The embedding models:
* `selectDistro` — the raw-terminal menu loop (cursor navigation, byte
  classification, rendering/clearing effects, terminal-mode capture and
  deferred restore);
* `main`'s handling of the selector's result;
* `CreatePersistentVolume` — volume-directory creation over an abstract
  filesystem environment;
* the tail of `initializeVM` — assembly of the `run` argument list and
  the container launch, with and without a persistent volume.

Bytes are modelled as `Nat` (the Go code only compares them against
ASCII constants). Input reads are modelled as an explicit list of read
results; the Go loop blocks on `os.Stdin.Read`, so a run that exhausts
the list without terminating is reported as `none` (still blocked).
-/

namespace LinuxForMac

/-- Bytes read from the terminal, as natural numbers (ASCII codes). -/
abbrev Byte := Nat

/-- Source: `var distroList = []string{"ubuntu", "debian", "arch", "fedora", "alpine"}`. -/
def distroList : List String := ["ubuntu", "debian", "arch", "fedora", "alpine"]

/-- Source: `var distroPath = map[string]string{...}` (association list model). -/
def distroPath : List (String × String) :=
  [("ubuntu", "docker.io/library/ubuntu"),
   ("arch",   "docker.io/archlinux/archlinux"),
   ("fedora", "docker.io/library/fedora:43"),
   ("debian", "docker.io/library/debian:trixie"),
   ("alpine", "docker.io/library/alpine:latest")]

/-- Result of one `os.Stdin.Read(buf)` call with a 3-byte buffer:
either `n` bytes were delivered (the list has length `n`), or the read
returned an error. -/
inductive ReadResult where
  | ok  (bytes : List Byte)
  | err
  deriving DecidableEq, Repr

/-- Errors of a selector session, mirroring the three `error` returns of
`selectDistro`: `fmt.Errorf("enable raw mode: %w", err)`,
`fmt.Errorf("read input: %w", err)` and `fmt.Errorf("cancelled")`. -/
inductive SessErr where
  | rawMode
  | readInput
  | cancelled
  deriving DecidableEq, Repr

/-- The `(string, error)` pair returned by `selectDistro`, as an `Except`. -/
abbrev SessResult := Except SessErr String

/-- Observable terminal-side effects of a selector session. `makeRaw`
is `term.MakeRaw` (capture prior mode and switch to raw), `restore` is
the deferred `term.Restore(fd, oldState)`, `render` is one call of the
`render` closure, `moveUp n` is the cursor-up escape printed at the top
of each loop iteration, and `clear` is the explicit
menu-clearing print performed just before a terminating return. -/
inductive Effect where
  | makeRaw
  | restore
  | render
  | moveUp (n : Nat)
  | clear
  deriving DecidableEq, Repr

/-- Source: `lines := len(distroList) + 4` — the height of the drawn block. -/
def menuLines (choices : List String) : Nat := choices.length + 4

/-- Classification of one read, mirroring the `if n == 1 { switch buf[0] }`
and `else if n == 3 && buf[0] == 27 && buf[1] == '[' { switch buf[2] }`
structure of the loop body. -/
inductive Key where
  | quit
  | enter
  | up
  | down
  | other
  deriving DecidableEq, Repr

/-- Byte classification of the loop body. Single bytes: `q`(113)/`Q`(81)
quit, carriage return (13) selects, `k`(107)/`K`(75) move up,
`j`(106)/`J`(74) move down; a 3-byte read `27, 91 ('['), 65 ('A')` moves
up and `27, 91, 66 ('B')` moves down; everything else falls through the
switches unhandled. -/
def classifyRead (bytes : List Byte) : Key :=
  match bytes with
  | [b] =>
      if b = 113 ∨ b = 81 then Key.quit
      else if b = 13 then Key.enter
      else if b = 107 ∨ b = 75 then Key.up
      else if b = 106 ∨ b = 74 then Key.down
      else Key.other
  | [b0, b1, b2] =>
      if b0 = 27 ∧ b1 = 91 then
        if b2 = 65 then Key.up
        else if b2 = 66 then Key.down
        else Key.other
      else Key.other
  | _ => Key.other

/-- Source: `if selected > 0 { selected-- }`. -/
def navUp (cursor : Nat) : Nat :=
  if cursor > 0 then cursor - 1 else cursor

/-- Source: `if selected < len(distroList)-1 { selected++ }`. -/
def navDown (choices : List String) (cursor : Nat) : Nat :=
  if cursor < choices.length - 1 then cursor + 1 else cursor

/-- Cursor update for one classified key; terminating keys do not move
the cursor. -/
def applyNav (choices : List String) (cursor : Nat) : Key → Nat
  | Key.up => navUp cursor
  | Key.down => navDown choices cursor
  | _ => cursor

/-- The `for {}` loop of `selectDistro`, from a given cursor over a list
of pending read results. Each iteration first prints the cursor-up
escape, then reads; a read error returns immediately; `q`/`Q` clears
the menu and returns the `cancelled` error; enter clears the menu and
returns `distroList[selected]`; navigation and unrecognized input
re-render and continue. `none` means the loop is still blocked waiting
for input. -/
def runLoop (choices : List String) (cursor : Nat) :
    List ReadResult → Option SessResult × List Effect
  | [] => (none, [])
  | r :: rest =>
    let up := Effect.moveUp (menuLines choices)
    match r with
    | ReadResult.err => (some (Except.error SessErr.readInput), [up])
    | ReadResult.ok bytes =>
      match classifyRead bytes with
      | Key.quit =>
          (some (Except.error SessErr.cancelled), [up, Effect.clear])
      | Key.enter =>
          (some (Except.ok (choices.getD cursor "")), [up, Effect.clear])
      | Key.up =>
          let next := runLoop choices (applyNav choices cursor Key.up) rest
          (next.1, up :: Effect.render :: next.2)
      | Key.down =>
          let next := runLoop choices (applyNav choices cursor Key.down) rest
          (next.1, up :: Effect.render :: next.2)
      | Key.other =>
          let next := runLoop choices cursor rest
          (next.1, up :: Effect.render :: next.2)

/-- The whole `selectDistro` session. `rawOk` is whether `term.MakeRaw`
succeeds; on failure the function returns the raw-mode error before any
output. On success the deferred `term.Restore` fires exactly when the
function returns, i.e. when the loop produces a result. -/
def selectDistroSession (rawOk : Bool) (reads : List ReadResult) :
    Option SessResult × List Effect :=
  if rawOk then
    match runLoop distroList 0 reads with
    | (some res, effs) =>
        (some res, Effect.makeRaw :: Effect.render :: (effs ++ [Effect.restore]))
    | (none, effs) =>
        (none, Effect.makeRaw :: Effect.render :: effs)
  else
    (some (Except.error SessErr.rawMode), [])

example :
    (selectDistroSession true
      [ReadResult.ok [27, 91, 66], ReadResult.ok [27, 91, 66], ReadResult.ok [13]]).1 =
      some (Except.ok "arch") := by rfl

example :
    (selectDistroSession true [ReadResult.ok [113]]).1 =
      some (Except.error SessErr.cancelled) := by rfl

example :
    (selectDistroSession true [ReadResult.ok [13]]).2 =
      [Effect.makeRaw, Effect.render, Effect.moveUp 9, Effect.clear, Effect.restore] := by
  decide

/-- Message attached to each selector error by `selectDistro`; the
detail wrapped by `%w` is elided, only the fixed message text of each
`fmt.Errorf` call is kept. -/
def errMsg : SessErr → String
  | SessErr.rawMode => "enable raw mode"
  | SessErr.readInput => "read input"
  | SessErr.cancelled => "cancelled"

/-- What `main` does with the result of `selectDistro`: either it dies
via `log.Fatalf` (which prints the formatted message and exits with a
nonzero status) or it proceeds to `initializeVM` with the chosen
distro. -/
inductive CallerAction where
  | fatalExit (msg : String)
  | proceed (distro : String)
  deriving DecidableEq, Repr

/-- Source (interactive branch of `main`):
`choice, err := selectDistro()` followed by
`if err != nil { log.Fatalf("Distro selection: %v", err) }` and
`linuxDistro = choice`. -/
def mainHandleSelection : SessResult → CallerAction
  | Except.error e => CallerAction.fatalExit ("Distro selection: " ++ errMsg e)
  | Except.ok choice => CallerAction.proceed choice

/-- Whether a caller action is the `log.Fatalf` path. -/
def isFatal : CallerAction → Bool
  | CallerAction.fatalExit _ => true
  | CallerAction.proceed _ => false

/-- Result of `os.Stat` on the volume path: a directory, a
non-directory entry, absent (`os.IsNotExist`), or some other stat
failure. -/
inductive StatResult where
  | isDir
  | notDir
  | notExist
  | statFailed
  deriving DecidableEq, Repr

/-- Abstract filesystem environment consumed by
`CreatePersistentVolume`: the result of `os.UserHomeDir` (`none` models
an error), the result of `os.Stat` per path, and whether `os.MkdirAll`
succeeds per path. -/
structure VolEnv where
  homeDir : Option String
  stat : String → StatResult
  mkdirOk : String → Bool

/-- Errors of `CreatePersistentVolume`, one per `fmt.Errorf` return:
home-dir lookup failed, the path exists but is not a directory, the
stat failed with a non-not-exist error, or `os.MkdirAll` failed. -/
inductive VolErr where
  | homeDirErr
  | notDirectory
  | statErr
  | mkdirErr
  deriving DecidableEq, Repr

/-- Filesystem modification attempted by `CreatePersistentVolume`. -/
inductive FsOp where
  | mkdirAll (path : String)
  deriving DecidableEq, Repr

/-- Source: `CreatePersistentVolume(distro string) (string, error)`.
Returns the Go function's result together with the list of filesystem
modifications it attempted: nothing on the home-dir error, on an
existing directory, on the not-a-directory error and on the stat
error; exactly one `MkdirAll` when the path does not exist (attempted
whether or not it succeeds). -/
def CreatePersistentVolume (env : VolEnv) (distro : String) :
    Except VolErr String × List FsOp :=
  let volumeName := distro ++ "_Volume"
  match env.homeDir with
  | none => (Except.error VolErr.homeDirErr, [])
  | some home =>
    let path := home ++ "/" ++ volumeName
    match env.stat path with
    | StatResult.isDir => (Except.ok path, [])
    | StatResult.notDir => (Except.error VolErr.notDirectory, [])
    | StatResult.statFailed => (Except.error VolErr.statErr, [])
    | StatResult.notExist =>
        if env.mkdirOk path then (Except.ok path, [FsOp.mkdirAll path])
        else (Except.error VolErr.mkdirErr, [FsOp.mkdirAll path])

/-- Source: the initial `args := []string{"run", "-it", "--rm", ...}`
slice of `initializeVM`. -/
def baseRunArgs (distro username uid gid : String) : List String :=
  ["run", "-it", "--rm", "--hostname", distro,
   "-e", "HOST_USER=" ++ username,
   "-e", "HOST_UID=" ++ uid,
   "-e", "HOST_GID=" ++ gid,
   "-e", "DISTRO_TYPE=" ++ distro]

/-- Source: the darwin-only block of `initializeVM` that bind-mounts the
host home directory when `os.UserHomeDir` succeeds and the username is
nonempty. -/
def darwinHomeArgs (isDarwin : Bool) (home : Option String) (username : String) :
    List String :=
  if isDarwin then
    match home with
    | some h => if username ≠ "" then ["-v", h ++ ":/home/" ++ username] else []
    | none => []
  else []

/-- The container launch performed at the end of `initializeVM`. -/
inductive LaunchAction where
  | runContainer (containerRuntime : String) (args : List String)
  deriving DecidableEq, Repr

/-- Source: the tail of `initializeVM` after
`volName, volErr := CreatePersistentVolume(distro)`. A volume error
only logs "Cannot create volume. Skipping" and omits the `-v` pair;
the interactive container is launched in both cases. -/
def initializeVMLaunch (containerRuntime distro username uid gid customImageTag : String)
    (isDarwin : Bool) (home : Option String)
    (volRes : Except VolErr String) : LaunchAction :=
  let args := baseRunArgs distro username uid gid
  let args :=
    match volRes with
    | Except.error _ => args
    | Except.ok volName => args ++ ["-v", volName ++ ":/data"]
  let args := args ++ darwinHomeArgs isDarwin home username
  LaunchAction.runContainer containerRuntime (args ++ [customImageTag])

/-! Helper lemmas shared across the claim theorems. -/

/-- One navigation step never moves the cursor out of bounds. -/
lemma applyNav_lt (choices : List String) (c : Nat) (k : Key)
    (h : c < choices.length) : applyNav choices c k < choices.length := by
  cases k <;> simp only [applyNav, navUp, navDown] <;> (try split) <;> omega

/-- The loop body never emits the `restore` effect; restoration happens
only through the deferred call when `selectDistro` returns. -/
lemma restore_not_mem_runLoop (choices : List String) (reads : List ReadResult) :
    ∀ c, Effect.restore ∉ (runLoop choices c reads).2 := by
  induction reads with
  | nil => intro c; simp [runLoop]
  | cons r rest ih =>
    intro c
    cases r with
    | err => simp [runLoop, menuLines]
    | ok bytes =>
      cases hcl : classifyRead bytes <;>
        simp [runLoop, hcl, menuLines, ih]

/-- A terminating session in raw mode ends its effect trace with exactly
one `restore`, emitted last. -/
lemma session_trace_shape (reads : List ReadResult) (res : SessResult)
    (effs : List Effect) (h : selectDistroSession true reads = (some res, effs)) :
    ∃ pre, effs = pre ++ [Effect.restore] ∧ Effect.restore ∉ pre := by
  unfold selectDistroSession at h
  rcases hr : runLoop distroList 0 reads with ⟨o, loopEffs⟩
  rw [hr] at h
  cases o with
  | none => simp at h
  | some r =>
    have h2 : Effect.makeRaw :: Effect.render :: (loopEffs ++ [Effect.restore]) = effs := by
      have := congrArg Prod.snd h
      simpa using this
    refine ⟨Effect.makeRaw :: Effect.render :: loopEffs, ?_, ?_⟩
    · rw [← h2]; simp
    · have hm := restore_not_mem_runLoop distroList reads 0
      rw [hr] at hm
      simp at hm ⊢
      exact hm

/-- C1: for every selector session whose raw-mode setup succeeded and
which terminates (normal selection, cancellation, or input-read
failure), the captured terminal mode is restored exactly once, as the
very last effect — the terminal is never left in raw mode after the
session returns. -/
theorem select_restores_terminal_once (reads : List ReadResult) (res : SessResult)
    (effs : List Effect) (h : selectDistroSession true reads = (some res, effs)) :
    effs.count Effect.restore = 1 ∧ effs.getLast? = some Effect.restore := by
  obtain ⟨pre, hpre, hmem⟩ := session_trace_shape reads res effs h
  subst hpre
  constructor
  · rw [List.count_append, List.count_eq_zero.mpr hmem]
    simp
  · rw [List.getLast?_concat]

theorem select_restores_terminal_once_witness :
    selectDistroSession true [ReadResult.ok [113]] =
      (some (Except.error SessErr.cancelled),
       [Effect.makeRaw, Effect.render, Effect.moveUp 9, Effect.clear, Effect.restore]) ∧
    ([Effect.makeRaw, Effect.render, Effect.moveUp 9, Effect.clear,
        Effect.restore].count Effect.restore = 1 ∧
      [Effect.makeRaw, Effect.render, Effect.moveUp 9, Effect.clear,
        Effect.restore].getLast? = some Effect.restore) :=
  ⟨by rfl,
   select_restores_terminal_once [ReadResult.ok [113]]
     (Except.error SessErr.cancelled)
     [Effect.makeRaw, Effect.render, Effect.moveUp 9, Effect.clear, Effect.restore]
     (by rfl)⟩

/-- C3: for every sequence of `j`/`J`/down-arrow and `k`/`K`/up-arrow
presses (indeed for every sequence of reads), the cursor starting at 0
always stays strictly below `len(choices)`; being a natural number it
is also never below 0. Down-moves are clamped at `len(choices)-1` and
up-moves at 0, with no wraparound. -/
theorem cursor_always_in_bounds (reads : List (List Byte)) :
    reads.foldl (fun c bytes => applyNav distroList c (classifyRead bytes)) 0 <
      distroList.length ∧
    applyNav distroList (distroList.length - 1) Key.down = distroList.length - 1 ∧
    applyNav distroList 0 Key.up = 0 := by
  refine ⟨?_, by decide, by decide⟩
  have hgen : ∀ (rs : List (List Byte)) (c : Nat), c < distroList.length →
      rs.foldl (fun c bytes => applyNav distroList c (classifyRead bytes)) c <
        distroList.length := by
    intro rs
    induction rs with
    | nil => intro c h; exact h
    | cons b bs ih =>
        intro c h
        exact ih _ (applyNav_lt distroList c (classifyRead b) h)
  exact hgen reads 0 (by decide)

/-- Down-arrow read: escape, `[`, `B`. -/
def downRead : ReadResult := ReadResult.ok [27, 91, 66]

/-- Enter read: a single carriage return. -/
def enterRead : ReadResult := ReadResult.ok [13]

/-- Running the loop from cursor `c` on `n` down-arrows followed by
enter selects the entry at index `c + n`, as long as the moves stay
below the clamp. -/
lemma runLoop_downs_enter (n : Nat) : ∀ c : Nat, c + n ≤ distroList.length - 1 →
    (runLoop distroList c (List.replicate n downRead ++ [enterRead])).1 =
      some (Except.ok (distroList.getD (c + n) "")) := by
  induction n with
  | zero =>
      intro c h
      simp [runLoop, enterRead, classifyRead]
  | succ n ih =>
      intro c h
      have hc : c < distroList.length - 1 := by
        simp [distroList] at h ⊢; omega
      have hnav : applyNav distroList c Key.down = c + 1 := by
        simp [applyNav, navDown, hc]
      rw [List.replicate_succ, List.cons_append]
      rw [show (c + (n + 1)) = (c + 1) + n from by omega]
      have hrest := ih (c + 1) (by omega)
      simp [runLoop, downRead, classifyRead, hnav]
      simpa [downRead] using hrest

/-- C2: pressing enter after `N` valid down-moves (`N < len(choices)-1`)
from the initial cursor 0 yields `Selected(choices[N])`. -/
theorem downs_then_enter_selects (N : Nat) (h : N < distroList.length - 1) :
    (selectDistroSession true (List.replicate N downRead ++ [enterRead])).1 =
      some (Except.ok (distroList.getD N "")) := by
  have hl := runLoop_downs_enter N 0 (by omega)
  simp only [Nat.zero_add] at hl
  unfold selectDistroSession
  rcases hr : runLoop distroList 0 (List.replicate N downRead ++ [enterRead]) with ⟨o, effs⟩
  rw [hr] at hl
  simp at hl
  subst hl
  simp

/-- Witness for C2 at the spec's end-to-end scenario: input down, down,
enter yields `Selected("arch")`. -/
theorem downs_then_enter_selects_witness :
    2 < distroList.length - 1 ∧
    (selectDistroSession true (List.replicate 2 downRead ++ [enterRead])).1 =
      some (Except.ok "arch") :=
  ⟨by decide, downs_then_enter_selects 2 (by decide)⟩

/-- The reads the loop body recognizes: the seven meaningful single
bytes (`q`, `Q`, enter, `k`, `K`, `j`, `J`) and the two meaningful
3-byte escape sequences (escape `[` `A`, escape `[` `B`). -/
def recognizedReads : List (List Byte) :=
  [[113], [81], [13], [107], [75], [106], [74], [27, 91, 65], [27, 91, 66]]

/-- Any read that is not one of the enumerated tokens falls through the
classification switches unhandled. -/
lemma classifyRead_eq_other (bytes : List Byte) (h : bytes ∉ recognizedReads) :
    classifyRead bytes = Key.other := by
  match bytes with
  | [] => rfl
  | [b] =>
      simp [recognizedReads] at h
      simp [classifyRead, h.1, h.2.1, h.2.2.1, h.2.2.2.1, h.2.2.2.2.1,
        h.2.2.2.2.2.1, h.2.2.2.2.2.2]
  | [b0, b1] => rfl
  | [b0, b1, b2] =>
      simp [recognizedReads] at h
      by_cases hb : b0 = 27 ∧ b1 = 91
      · obtain ⟨e0, e1⟩ := hb
        subst e0; subst e1
        have h2 : b2 ≠ 65 := fun hx => h.1 rfl rfl hx
        have h3 : b2 ≠ 66 := fun hx => h.2 rfl rfl hx
        simp [classifyRead, h2, h3]
      · simp [classifyRead, hb]
  | b0 :: b1 :: b2 :: b3 :: t => rfl

/-- C4: any input other than the enumerated tokens leaves the cursor and
the session outcome unchanged, and the loop continues with exactly one
re-render (one `render` effect, preceded by the per-iteration cursor-up,
added to whatever the rest of the session does from the same cursor). -/
theorem unrecognized_input_is_ignored (bytes : List Byte)
    (h : bytes ∉ recognizedReads) (c : Nat) (rest : List ReadResult) :
    runLoop distroList c (ReadResult.ok bytes :: rest) =
      ((runLoop distroList c rest).1,
        Effect.moveUp (menuLines distroList) :: Effect.render ::
          (runLoop distroList c rest).2) := by
  have hcl := classifyRead_eq_other bytes h
  simp [runLoop, hcl]

theorem unrecognized_input_is_ignored_witness :
    [120] ∉ recognizedReads ∧
    runLoop distroList 0 [ReadResult.ok [120]] =
      ((runLoop distroList 0 []).1,
        Effect.moveUp (menuLines distroList) :: Effect.render ::
          (runLoop distroList 0 []).2) :=
  ⟨by decide, unrecognized_input_is_ignored [120] (by decide) 0 []⟩

/-- A read that neither terminates the loop nor errors: a successful
read classified as up, down, or unrecognized. -/
def nonTerminatingRead : ReadResult → Bool
  | ReadResult.ok bytes =>
      match classifyRead bytes with
      | Key.up => true
      | Key.down => true
      | Key.other => true
      | _ => false
  | ReadResult.err => false

/-- After any sequence of non-terminating reads, a `q`/`Q` read stops
the loop with the cancellation error, emitting the menu-clearing print
as the final loop effect. -/
lemma runLoop_quit (b : Byte) (hb : b = 113 ∨ b = 81) (rest : List ReadResult) :
    ∀ navs : List ReadResult, (∀ r ∈ navs, nonTerminatingRead r = true) →
    ∀ c, ∃ pre, runLoop distroList c (navs ++ ReadResult.ok [b] :: rest) =
      (some (Except.error SessErr.cancelled),
        pre ++ [Effect.moveUp (menuLines distroList), Effect.clear]) := by
  intro navs
  induction navs with
  | nil =>
      intro _ c
      refine ⟨[], ?_⟩
      have hcl : classifyRead [b] = Key.quit := by
        rcases hb with hb | hb <;> subst hb <;> rfl
      simp [runLoop, hcl]
  | cons r navs ih =>
      intro hn c
      have hr := hn r (by simp)
      have hn2 : ∀ x ∈ navs, nonTerminatingRead x = true :=
        fun x hx => hn x (by simp [hx])
      cases r with
      | err => simp [nonTerminatingRead] at hr
      | ok bytes =>
          cases hcl : classifyRead bytes with
          | quit => simp [nonTerminatingRead, hcl] at hr
          | enter => simp [nonTerminatingRead, hcl] at hr
          | up =>
              obtain ⟨pre, hpre⟩ := ih hn2 (applyNav distroList c Key.up)
              exact ⟨Effect.moveUp (menuLines distroList) :: Effect.render :: pre,
                by simp [runLoop, hcl, hpre]⟩
          | down =>
              obtain ⟨pre, hpre⟩ := ih hn2 (applyNav distroList c Key.down)
              exact ⟨Effect.moveUp (menuLines distroList) :: Effect.render :: pre,
                by simp [runLoop, hcl, hpre]⟩
          | other =>
              obtain ⟨pre, hpre⟩ := ih hn2 c
              exact ⟨Effect.moveUp (menuLines distroList) :: Effect.render :: pre,
                by simp [runLoop, hcl, hpre]⟩

/-- C5: pressing `q` or `Q` at any cursor position, after any sequence
of prior navigation or ignored input, terminates the session with the
cancellation outcome, clearing the drawn menu region before the
deferred terminal restore fires. -/
theorem quit_always_cancels (b : Byte) (hb : b = 113 ∨ b = 81)
    (navs : List ReadResult) (hn : ∀ r ∈ navs, nonTerminatingRead r = true)
    (rest : List ReadResult) :
    (selectDistroSession true (navs ++ ReadResult.ok [b] :: rest)).1 =
      some (Except.error SessErr.cancelled) ∧
    ∃ pre, (selectDistroSession true (navs ++ ReadResult.ok [b] :: rest)).2 =
      pre ++ [Effect.moveUp (menuLines distroList), Effect.clear, Effect.restore] := by
  obtain ⟨pre, hpre⟩ := runLoop_quit b hb rest navs hn 0
  unfold selectDistroSession
  rw [hpre]
  exact ⟨rfl, ⟨Effect.makeRaw :: Effect.render :: pre, by simp⟩⟩

theorem quit_always_cancels_witness :
    ((113 : Nat) = 113 ∨ (113 : Nat) = 81) ∧
    (∀ r ∈ [ReadResult.ok [106]], nonTerminatingRead r = true) ∧
    (selectDistroSession true
        ([ReadResult.ok [106]] ++ ReadResult.ok [113] :: [])).1 =
      some (Except.error SessErr.cancelled) :=
  ⟨Or.inl rfl, by decide,
    (quit_always_cancels 113 (Or.inl rfl) [ReadResult.ok [106]] (by decide) []).1⟩

/-- After any sequence of non-terminating reads, a read error stops the
loop at once: everything queued after the failing read is never
consumed. -/
lemma runLoop_err_ignores_rest (rest : List ReadResult) :
    ∀ navs : List ReadResult, (∀ r ∈ navs, nonTerminatingRead r = true) →
    ∀ c, runLoop distroList c (navs ++ ReadResult.err :: rest) =
      runLoop distroList c (navs ++ [ReadResult.err]) := by
  intro navs
  induction navs with
  | nil => intro _ c; rfl
  | cons r navs ih =>
      intro hn c
      have hr := hn r (by simp)
      have hn2 : ∀ x ∈ navs, nonTerminatingRead x = true :=
        fun x hx => hn x (by simp [hx])
      cases r with
      | err => simp [nonTerminatingRead] at hr
      | ok bytes =>
          cases hcl : classifyRead bytes with
          | quit => simp [nonTerminatingRead, hcl] at hr
          | enter => simp [nonTerminatingRead, hcl] at hr
          | up => simp [runLoop, hcl, ih hn2]
          | down => simp [runLoop, hcl, ih hn2]
          | other => simp [runLoop, hcl, ih hn2]

/-- After any sequence of non-terminating reads, a read error makes the
loop return the read-input error. -/
lemma runLoop_err_result (navs : List ReadResult)
    (hn : ∀ r ∈ navs, nonTerminatingRead r = true) :
    ∀ c, (runLoop distroList c (navs ++ [ReadResult.err])).1 =
      some (Except.error SessErr.readInput) := by
  induction navs with
  | nil => intro c; rfl
  | cons r navs ih =>
      intro c
      have hr := hn r (by simp)
      have hn2 : ∀ x ∈ navs, nonTerminatingRead x = true :=
        fun x hx => hn x (by simp [hx])
      cases r with
      | err => simp [nonTerminatingRead] at hr
      | ok bytes =>
          cases hcl : classifyRead bytes with
          | quit => simp [nonTerminatingRead, hcl] at hr
          | enter => simp [nonTerminatingRead, hcl] at hr
          | up => simp [runLoop, hcl, ih hn2]
          | down => simp [runLoop, hcl, ih hn2]
          | other => simp [runLoop, hcl, ih hn2]

/-- The loop never produces the raw-mode error; that error arises only
from `term.MakeRaw` before the loop starts. -/
lemma runLoop_not_rawMode (choices : List String) (reads : List ReadResult) :
    ∀ c, (runLoop choices c reads).1 ≠ some (Except.error SessErr.rawMode) := by
  induction reads with
  | nil => intro c; simp [runLoop]
  | cons r rest ih =>
      intro c
      cases r with
      | err => simp [runLoop]
      | ok bytes =>
          cases hcl : classifyRead bytes with
          | quit => simp [runLoop, hcl]
          | enter => simp [runLoop, hcl]
          | up => simp [runLoop, hcl]; exact ih _
          | down => simp [runLoop, hcl]; exact ih _
          | other => simp [runLoop, hcl]; exact ih _

/-- The loop produces the read-input error only if one of its reads
actually errored. -/
lemma runLoop_readInput_mem (choices : List String) (reads : List ReadResult) :
    ∀ c, (runLoop choices c reads).1 = some (Except.error SessErr.readInput) →
      ReadResult.err ∈ reads := by
  induction reads with
  | nil => intro c h; simp [runLoop] at h
  | cons r rest ih =>
      intro c h
      cases r with
      | err => simp
      | ok bytes =>
          cases hcl : classifyRead bytes with
          | quit => simp [runLoop, hcl] at h
          | enter => simp [runLoop, hcl] at h
          | up => simp [runLoop, hcl] at h; exact List.mem_cons_of_mem _ (ih _ h)
          | down => simp [runLoop, hcl] at h; exact List.mem_cons_of_mem _ (ih _ h)
          | other => simp [runLoop, hcl] at h; exact List.mem_cons_of_mem _ (ih _ h)

/-- C6: the session fails with an IOError exactly when raw-mode setup
fails or an input read fails. On a read failure it aborts the loop
immediately — reads queued after the failure are never consumed (no
retry) — restores the terminal mode last, and surfaces the read error
to the caller. Conversely an IOError result implies a setup failure or
an errored read. -/
theorem ioerror_iff_setup_or_read_failure (navs : List ReadResult)
    (hn : ∀ r ∈ navs, nonTerminatingRead r = true) (rest : List ReadResult) :
    (∀ reads, (selectDistroSession false reads).1 =
      some (Except.error SessErr.rawMode)) ∧
    selectDistroSession true (navs ++ ReadResult.err :: rest) =
      selectDistroSession true (navs ++ [ReadResult.err]) ∧
    (selectDistroSession true (navs ++ ReadResult.err :: rest)).1 =
      some (Except.error SessErr.readInput) ∧
    ((selectDistroSession true (navs ++ ReadResult.err :: rest)).2).getLast? =
      some Effect.restore ∧
    (∀ (rawOk : Bool) (reads : List ReadResult) (res : SessResult),
      (selectDistroSession rawOk reads).1 = some res →
      (res = Except.error SessErr.rawMode ∨ res = Except.error SessErr.readInput) →
      rawOk = false ∨ ReadResult.err ∈ reads) := by
  have hterm : (selectDistroSession true (navs ++ ReadResult.err :: rest)).1 =
      some (Except.error SessErr.readInput) := by
    unfold selectDistroSession
    rw [runLoop_err_ignores_rest rest navs hn 0]
    rcases hr : runLoop distroList 0 (navs ++ [ReadResult.err]) with ⟨o, effs⟩
    have := runLoop_err_result navs hn 0
    rw [hr] at this
    simp at this
    subst this
    simp
  refine ⟨fun reads => rfl, ?_, hterm, ?_, ?_⟩
  · unfold selectDistroSession
    rw [runLoop_err_ignores_rest rest navs hn 0]
  · rcases hs : selectDistroSession true (navs ++ ReadResult.err :: rest) with ⟨o, effs⟩
    rw [hs] at hterm
    simp at hterm
    subst hterm
    obtain ⟨pre, hpre, _⟩ :=
      session_trace_shape (navs ++ ReadResult.err :: rest) _ effs hs
    simp [hpre, List.getLast?_concat]
  · intro rawOk reads res h hio
    cases rawOk with
    | false => exact Or.inl rfl
    | true =>
        refine Or.inr ?_
        unfold selectDistroSession at h
        rcases hr : runLoop distroList 0 reads with ⟨o, effs⟩
        rw [hr] at h
        cases o with
        | none => simp at h
        | some r =>
            simp at h
            subst h
            rcases hio with hio | hio
            · subst hio
              exact absurd (by rw [hr]) (runLoop_not_rawMode distroList reads 0)
            · subst hio
              exact runLoop_readInput_mem distroList reads 0 (by rw [hr])

theorem ioerror_iff_setup_or_read_failure_witness :
    (∀ r ∈ ([] : List ReadResult), nonTerminatingRead r = true) ∧
    (selectDistroSession true ([] ++ ReadResult.err :: [ReadResult.ok [13]])).1 =
      some (Except.error SessErr.readInput) :=
  ⟨by simp,
    (ioerror_iff_setup_or_read_failure [] (by simp) [ReadResult.ok [13]]).2.2.1⟩

/-- C7 counterexample: the caller does NOT treat cancellation as a
first-class outcome distinct from failure, and does not exit quietly.
`selectDistro` surfaces cancellation as an ordinary error value
(`fmt.Errorf("cancelled")`), and `main` feeds every non-nil error —
cancellation included — to the same `log.Fatalf("Distro selection: %v",
err)` call: on the concrete cancelled result it takes the fatal-exit
path with the further output "Distro selection: cancelled", exactly the
treatment an IOError receives. -/
theorem cancelled_treated_as_fatal_error :
    mainHandleSelection (Except.error SessErr.cancelled) =
      CallerAction.fatalExit "Distro selection: cancelled" ∧
    isFatal (mainHandleSelection (Except.error SessErr.cancelled)) = true ∧
    isFatal (mainHandleSelection (Except.error SessErr.cancelled)) =
      isFatal (mainHandleSelection (Except.error SessErr.readInput)) := by
  exact ⟨rfl, rfl, rfl⟩

/-- C7 as amended: cancellation flows to the caller through the same
error channel as IOErrors and `main` treats it identically — it logs
"Distro selection: cancelled" fatally rather than exiting quietly —
although `selectDistro` itself does clear the menu region and restore
the terminal before returning the cancelled result. -/
theorem cancelled_cleared_restored_but_fatal :
    (selectDistroSession true [ReadResult.ok [113]]).1 =
      some (Except.error SessErr.cancelled) ∧
    (selectDistroSession true [ReadResult.ok [113]]).2 =
      [Effect.makeRaw, Effect.render, Effect.moveUp 9, Effect.clear,
        Effect.restore] ∧
    mainHandleSelection (Except.error SessErr.cancelled) =
      CallerAction.fatalExit "Distro selection: cancelled" ∧
    isFatal (mainHandleSelection (Except.error SessErr.cancelled)) =
      isFatal (mainHandleSelection (Except.error SessErr.readInput)) := by
  exact ⟨rfl, rfl, rfl, rfl⟩

/-- The loop only ever hands back a label of the choice list: the cursor
stays in bounds, and on enter the indexed element is returned. -/
lemma runLoop_ok_mem (choices : List String) (reads : List ReadResult) :
    ∀ c, c < choices.length → ∀ label,
      (runLoop choices c reads).1 = some (Except.ok label) → label ∈ choices := by
  induction reads with
  | nil => intro c hc label h; simp [runLoop] at h
  | cons r rest ih =>
      intro c hc label h
      cases r with
      | err => simp [runLoop] at h
      | ok bytes =>
          cases hcl : classifyRead bytes with
          | quit => simp [runLoop, hcl] at h
          | enter =>
              simp [runLoop, hcl] at h
              subst h
              rw [List.getElem?_eq_getElem hc]
              simp [List.getElem_mem hc]
          | up =>
              simp [runLoop, hcl] at h
              exact ih _ (applyNav_lt choices c Key.up hc) _ h
          | down =>
              simp [runLoop, hcl] at h
              exact ih _ (applyNav_lt choices c Key.down hc) _ h
          | other =>
              simp [runLoop, hcl] at h
              exact ih _ hc _ h

/-- C8: whenever the selector returns successfully, the returned label
is an element of the fixed five-element choice list, and every such
label is a key of the `distroPath` image map, so a successful selection
always names a supported distro. -/
theorem selection_is_supported :
    (∀ (rawOk : Bool) (reads : List ReadResult) (label : String),
      (selectDistroSession rawOk reads).1 = some (Except.ok label) →
        label ∈ distroList) ∧
    (∀ d ∈ distroList, (distroPath.lookup d).isSome = true) := by
  constructor
  · intro rawOk reads label h
    cases rawOk with
    | false => simp [selectDistroSession] at h
    | true =>
        unfold selectDistroSession at h
        rcases hr : runLoop distroList 0 reads with ⟨o, effs⟩
        rw [hr] at h
        cases o with
        | none => simp at h
        | some r =>
            simp at h
            subst h
            exact runLoop_ok_mem distroList reads 0 (by decide) label (by rw [hr])
  · decide

theorem selection_is_supported_witness :
    "ubuntu" ∈ distroList ∧ (distroPath.lookup "arch").isSome = true :=
  ⟨selection_is_supported.1 true [ReadResult.ok [13]] "ubuntu" rfl,
   selection_is_supported.2 "arch" (by decide)⟩

/-- C9: case analysis of `CreatePersistentVolume` over the abstract
filesystem environment. If the volume path already exists as a
directory the existing path is returned with no modification; if the
path exists as a non-directory, or the home-dir or stat lookup fails,
an error is returned with no modification; any attempted modification
implies the path did not exist. -/
theorem createPersistentVolume_cases (env : VolEnv) (distro : String) :
    (env.homeDir = none →
      CreatePersistentVolume env distro = (Except.error VolErr.homeDirErr, [])) ∧
    (∀ home, env.homeDir = some home →
      (env.stat (home ++ "/" ++ (distro ++ "_Volume")) = StatResult.isDir →
        CreatePersistentVolume env distro =
          (Except.ok (home ++ "/" ++ (distro ++ "_Volume")), [])) ∧
      (env.stat (home ++ "/" ++ (distro ++ "_Volume")) = StatResult.notDir →
        CreatePersistentVolume env distro =
          (Except.error VolErr.notDirectory, [])) ∧
      (env.stat (home ++ "/" ++ (distro ++ "_Volume")) = StatResult.statFailed →
        CreatePersistentVolume env distro = (Except.error VolErr.statErr, []))) ∧
    ((CreatePersistentVolume env distro).2 ≠ [] →
      ∃ home, env.homeDir = some home ∧
        env.stat (home ++ "/" ++ (distro ++ "_Volume")) = StatResult.notExist) := by
  refine ⟨?_, ?_, ?_⟩
  · intro h
    simp [CreatePersistentVolume, h]
  · intro home hh
    refine ⟨?_, ?_, ?_⟩ <;> intro hs <;> simp [CreatePersistentVolume, hh, hs]
  · intro h
    cases hh : env.homeDir with
    | none => simp [CreatePersistentVolume, hh] at h
    | some home =>
        refine ⟨home, rfl, ?_⟩
        cases hs : env.stat (home ++ "/" ++ (distro ++ "_Volume")) with
        | notExist => rfl
        | isDir => simp [CreatePersistentVolume, hh, hs] at h
        | notDir => simp [CreatePersistentVolume, hh, hs] at h
        | statFailed => simp [CreatePersistentVolume, hh, hs] at h

theorem createPersistentVolume_cases_witness :
    CreatePersistentVolume
        ⟨some "/Users/dev", fun _ => StatResult.isDir, fun _ => true⟩ "ubuntu" =
      (Except.ok "/Users/dev/ubuntu_Volume", []) :=
  ((createPersistentVolume_cases
      ⟨some "/Users/dev", fun _ => StatResult.isDir, fun _ => true⟩
      "ubuntu").2.1 "/Users/dev" rfl).1 rfl

/-- C10: if `CreatePersistentVolume` fails, `initializeVM` does not
abort — it still launches the interactive container, with an argument
list that differs from the success case exactly by omitting the `-v`
volume-mount pair. -/
theorem volume_failure_degrades_not_aborts
    (containerRuntime distro username uid gid tag : String)
    (isDarwin : Bool) (home : Option String) (e : VolErr) (volName : String) :
    initializeVMLaunch containerRuntime distro username uid gid tag
        isDarwin home (Except.error e) =
      LaunchAction.runContainer containerRuntime
        (baseRunArgs distro username uid gid ++
          darwinHomeArgs isDarwin home username ++ [tag]) ∧
    initializeVMLaunch containerRuntime distro username uid gid tag
        isDarwin home (Except.ok volName) =
      LaunchAction.runContainer containerRuntime
        (baseRunArgs distro username uid gid ++ ["-v", volName ++ ":/data"] ++
          darwinHomeArgs isDarwin home username ++ [tag]) := by
  constructor <;> simp [initializeVMLaunch]

end LinuxForMac
